import Mathlib

/-!
Verification of the resource-usage reporting scripts `duim.py` and
`assignment2.py`.  The Python functions are shallowly embedded: strings are
Lean `String`s, Python `int` values are `ℤ`, Python `float` arithmetic is
modelled over `ℚ` (every numeric input exercised by the claims is a dyadic
rational, where binary floating point is exact), and functions that can
raise are valued in `Except String`.
-/

set_option autoImplicit false

attribute [local semireducible] Rat.mul Rat.inv Rat.add Rat.sub Rat.ofScientific

/-! ### Python string primitives -/

/-- The ASCII whitespace characters recognised by `str.split` and `int`. -/
def pyIsSpace (c : Char) : Bool :=
  c = ' ' || c = '\t' || c = '\n' || c = '\x0d' || c = '\x0b' || c = '\x0c'

/-- Boolean prefix test on character lists (for `str.startswith`). -/
def listIsPrefixOf : List Char → List Char → Bool
  | [], _ => true
  | _ :: _, [] => false
  | c :: cs, d :: ds => c == d && listIsPrefixOf cs ds

/-- Python `line.startswith(pre)`. -/
def startswith (line pre : String) : Bool :=
  listIsPrefixOf pre.toList line.toList

/-- Worker for `pySplit`: accumulates the current word in reverse. -/
def pySplitGo : List Char → List Char → List (List Char)
  | [], acc => if acc.isEmpty then [] else [acc.reverse]
  | c :: cs, acc =>
    if pyIsSpace c then
      if acc.isEmpty then pySplitGo cs [] else acc.reverse :: pySplitGo cs []
    else
      pySplitGo cs (c :: acc)

/-- Python `s.split()` with no arguments: split on runs of whitespace,
dropping empty fields. -/
def pySplit (s : List Char) : List (List Char) :=
  pySplitGo s []

/-- Python `s.split(maxsplit=1)`: strip leading whitespace, take the first
word, consume the whitespace run after it, and keep the remainder verbatim
(dropped when empty). -/
def pySplitMax1 (s : List Char) : List (List Char) :=
  let t := s.dropWhile pyIsSpace
  if t.isEmpty then []
  else
    let w := t.takeWhile (fun c => !pyIsSpace c)
    let rest := (t.dropWhile (fun c => !pyIsSpace c)).dropWhile pyIsSpace
    if rest.isEmpty then [w] else [w, rest]

/-- Worker for `digitsToNat`: consumes decimal digits, allowing a single
underscore between two digits as Python `int` does. -/
def pyDigitsGo : List Char → ℕ → Option ℕ
  | [], acc => some acc
  | '_' :: c :: cs, acc =>
    if c.isDigit then pyDigitsGo cs (acc * 10 + (c.toNat - 48)) else none
  | c :: cs, acc =>
    if c.isDigit then pyDigitsGo cs (acc * 10 + (c.toNat - 48)) else none

/-- A nonempty ASCII digit string (with Python digit-group underscores) to a
natural number; `none` on any malformed input. -/
def digitsToNat : List Char → Option ℕ
  | [] => none
  | c :: cs => if c.isDigit then pyDigitsGo cs (c.toNat - 48) else none

/-- Python `int(s)` on an ASCII decimal string: surrounding whitespace is
stripped, an optional single sign is allowed, and the digits must be
nonempty; `none` models the `ValueError` raised otherwise. -/
def pyInt? (s : List Char) : Option ℤ :=
  let t := ((s.dropWhile pyIsSpace).reverse.dropWhile pyIsSpace).reverse
  match t with
  | '+' :: ds => (digitsToNat ds).map Int.ofNat
  | '-' :: ds => (digitsToNat ds).map (fun n => -(n : ℤ))
  | ds => (digitsToNat ds).map Int.ofNat

/-- Python `line.split()[1]` followed by `int(...)`: the second
whitespace-separated token parsed as an integer; `none` models both the
`IndexError` when fewer than two tokens exist and the `ValueError` when the
token is not an integer literal. -/
def secondTokenInt (line : String) : Option ℤ :=
  match pySplit line.toList with
  | _ :: t :: _ => pyInt? t
  | _ => none

/-! ### Python numeric primitives -/

/-- Python 3 `round(x)` on an exactly represented value: round to the
nearest integer, ties to the even integer.  (`Rat.floor` is used rather
than `⌊·⌋` so that the definition evaluates by kernel reduction; the two
agree by `Rat.floor_def`.) -/
def pyRound (q : ℚ) : ℤ :=
  let f := q.floor
  let r := q - (f : ℚ)
  if r < 1 / 2 then f
  else if 1 / 2 < r then f + 1
  else if f % 2 = 0 then f else f + 1

/-- Python `int(x)` on a float/rational: truncation toward zero. -/
def pyTrunc (q : ℚ) : ℤ :=
  if 0 ≤ q then q.floor else -(-q).floor

/-- Round half up, the rounding rule the specification mandates:
`⌊q + 1/2⌋`. -/
def roundHalfUp (q : ℚ) : ℤ :=
  (q + 1 / 2).floor

/-- Number of occurrences of a character in a string. -/
def countChar (c : Char) (s : String) : ℕ :=
  s.toList.count c

/-! ### duim.py -/

namespace duim

/-- The bar characters built by `percent_to_graph` in `duim.py`:
`'=' * filled_length + ' ' * (total_chars - filled_length)` with
`filled_length = round(percent / 100 * total_chars)`.  Python string
repetition by a negative count yields the empty string, which `Int.toNat`
models. -/
def graph_chars (percent : ℚ) (total_chars : ℤ) : List Char :=
  let filled_length := pyRound (percent / 100 * (total_chars : ℚ))
  List.replicate filled_length.toNat '=' ++
    List.replicate (total_chars - filled_length).toNat ' '

/-- Function `percent_to_graph` from `duim.py`: raises `ValueError` unless
`0 <= percent <= 100`, then returns the bar string. -/
def percent_to_graph (percent : ℚ) (total_chars : ℤ) : Except String String :=
  if ¬ (0 ≤ percent ∧ percent ≤ 100) then
    .error "Percent must be between 0 and 100."
  else
    .ok (String.mk (graph_chars percent total_chars))

/-- The body of the `try` block in `create_dir_dict`:
`size, directory = line.split(maxsplit=1)` followed by
`int(size)`; `none` models the `ValueError` paths that the
`except ValueError: continue` clause swallows. -/
def parseLine (line : String) : Option (String × ℤ) :=
  match pySplitMax1 line.toList with
  | [size, directory] => (pyInt? size).map (fun n => (String.mk directory, n))
  | _ => none

/-- Python dict assignment `d[k] = v`: update in place when the key exists,
append otherwise (insertion order preserved). -/
def dictInsert (d : List (String × ℤ)) (k : String) (v : ℤ) :
    List (String × ℤ) :=
  if d.any (fun e => e.1 = k) then
    d.map (fun e => if e.1 = k then (k, v) else e)
  else
    d ++ [(k, v)]

/-- One iteration of the loop body of `create_dir_dict`. -/
def dirStep (d : List (String × ℤ)) (line : String) : List (String × ℤ) :=
  match parseLine line with
  | some (directory, size) => dictInsert d directory size
  | none => d

/-- Function `create_dir_dict` from `duim.py`: build the directory-to-size dict from
the `du` output lines, skipping lines that fail to unpack or parse. -/
def create_dir_dict (du_output : List String) : List (String × ℤ) :=
  du_output.foldl dirStep []

/-- Python `sum(dir_dict.values())` over the association-list model of the dict. -/
def valuesSum (d : List (String × ℤ)) : ℤ :=
  (d.map Prod.snd).sum

/-- Binding `total_size = sum(dir_dict.values())` in `main` of `duim.py`. -/
def total_size (du_output : List String) : ℤ :=
  valuesSum (create_dir_dict du_output)

/-- The per-entry percentage in `main` of `duim.py`:
`(size / total_size) * 100 if total_size > 0 else 0`. -/
def entry_percent (size total : ℤ) : ℚ :=
  if 0 < total then ((size : ℚ) / (total : ℚ)) * 100 else 0

/-- The percentage `main` of `duim.py` computes for a directory of the given
size, with the denominator it actually uses (`total_size`). -/
def report_percent (du_output : List String) (size : ℤ) : ℚ :=
  entry_percent size (total_size du_output)

/-- Python `f"{q:.1f}"` on an exactly represented nonnegative value: one
decimal digit, rounding ties to even.  (On actual floats the tie direction
can be perturbed by binary representation error; every value the claims
exercise is exact.) -/
def format1f (q : ℚ) : String :=
  let n := pyRound (q * 10)
  toString (n / 10) ++ "." ++ toString (n % 10)

/-- The `human_readable` lambda of `main` in `duim.py` when
`--human-readable` is set: thresholds at `1e9`, `1e6`, and otherwise the
`K` branch — there is no byte-scale branch. -/
def human_readable_on (x : ℤ) : String :=
  if (x : ℚ) ≥ 1000000000 then format1f ((x : ℚ) / 1000000000) ++ " G"
  else if (x : ℚ) ≥ 1000000 then format1f ((x : ℚ) / 1000000) ++ " M"
  else format1f ((x : ℚ) / 1000) ++ " K"

/-- The `human_readable` lambda of `main` in `duim.py` when
`--human-readable` is not set: `f"{x} B"`. -/
def human_readable_off (x : ℤ) : String :=
  toString x ++ " B"

/-- Loop of `get_rss_total` in `duim.py`: accumulate
`int(line.split()[1])` over lines starting with `Rss:`; an unparseable
`Rss:` line raises (`ValueError` is not caught there). -/
def rssTotalGo : ℤ → List String → Except String ℤ
  | acc, [] => .ok acc
  | acc, line :: rest =>
    if startswith line "Rss:" then
      match secondTokenInt line with
      | some v => rssTotalGo (acc + v) rest
      | none => .error "ValueError"
    else rssTotalGo acc rest

/-- Function `get_rss_total` from `duim.py`: the smaps source is `none` when the
file is missing (`FileNotFoundError`), in which case 0 is returned. -/
def get_rss_total (smaps : Option (List String)) : Except String ℤ :=
  match smaps with
  | none => .ok 0
  | some lines => rssTotalGo 0 lines

end duim

/-! ### assignment2.py -/

namespace assignment2

/-- The bar region of `percent_to_graph` in `assignment2.py`:
`'#' * num_hashes + ' ' * num_spaces` with `num_hashes = int(percent * length)`
(truncation) and `num_spaces = length - num_hashes`. -/
def bar_region (percent : ℚ) (length : ℤ) : List Char :=
  let num_hashes := pyTrunc (percent * (length : ℚ))
  let num_spaces := length - num_hashes
  List.replicate num_hashes.toNat '#' ++ List.replicate num_spaces.toNat ' '

/-- Function `percent_to_graph` from `assignment2.py`: no validation; the bar is
wrapped as `[<bar> | <int(percent * 100)>%]`.  Here `percent` is used as a
fraction of 1, not of 100. -/
def percent_to_graph (percent : ℚ) (length : ℤ) : String :=
  "[" ++ String.mk (bar_region percent length) ++ " | " ++
    toString (pyTrunc (percent * 100)) ++ "%]"

/-- Loop of `get_avail_mem` in `assignment2.py`: the running pair is
`(mem_available, mem_free)`, both initialised to 0; a line starting with
`MemAvailable` overwrites the first component, otherwise a line starting
with `MemFree` overwrites the second; an unparseable matching line raises
`ValueError` (uncaught). -/
def availFreeGo : ℤ → ℤ → List String → Except String (ℤ × ℤ)
  | available, free, [] => .ok (available, free)
  | available, free, line :: rest =>
    if startswith line "MemAvailable" then
      match secondTokenInt line with
      | some v => availFreeGo v free rest
      | none => .error "ValueError"
    else if startswith line "MemFree" then
      match secondTokenInt line with
      | some v => availFreeGo available v rest
      | none => .error "ValueError"
    else availFreeGo available free rest

/-- Function `get_avail_mem` from `assignment2.py`: after the loop, the return is
`mem_available or (mem_free * 2)` — Python `or` yields the left operand
when it is a nonzero integer and the right operand otherwise. -/
def get_avail_mem (meminfo : List String) : Except String ℤ :=
  (availFreeGo 0 0 meminfo).map
    (fun p => if p.1 ≠ 0 then p.1 else p.2 * 2)

/-- Loop of `rss_mem_of_pid` in `assignment2.py` (same shape as
`get_rss_total` in `duim.py`). -/
def rssGo : ℤ → List String → Except String ℤ
  | acc, [] => .ok acc
  | acc, line :: rest =>
    if startswith line "Rss:" then
      match secondTokenInt line with
      | some v => rssGo (acc + v) rest
      | none => .error "ValueError"
    else rssGo acc rest

/-- Function `rss_mem_of_pid` from `assignment2.py`: the smaps source is `none`
when the file is missing (`FileNotFoundError`), in which case 0 is
returned. -/
def rss_mem_of_pid (smaps : Option (List String)) : Except String ℤ :=
  match smaps with
  | none => .ok 0
  | some lines => rssGo 0 lines

end assignment2

/-- The `Rss:` values a smaps source carries, in order: the parsed second
token of every line starting with `Rss:`.  Used to state what the RSS
readers sum. -/
def rssValues (lines : List String) : List ℤ :=
  lines.filterMap
    (fun l => if startswith l "Rss:" then secondTokenInt l else none)

deriving instance DecidableEq for Except

/-! ### Helper lemmas -/

theorem ratFloor_eq (q : ℚ) : q.floor = ⌊q⌋ :=
  (Rat.floor_def' q).trans Rat.floor_def.symm

theorem pyRound_ge_floor (q : ℚ) : ⌊q⌋ ≤ pyRound q := by
  simp only [pyRound, ratFloor_eq]
  split
  · exact le_refl _
  · split
    · omega
    · split <;> omega

theorem pyRound_nonneg {q : ℚ} (h : 0 ≤ q) : 0 ≤ pyRound q := by
  have h0 : (0 : ℤ) ≤ ⌊q⌋ := Int.le_floor.mpr (by exact_mod_cast h)
  exact le_trans h0 (pyRound_ge_floor q)

theorem pyRound_le_int {q : ℚ} {n : ℤ} (h : q ≤ (n : ℚ)) : pyRound q ≤ n := by
  have hf : ⌊q⌋ ≤ n := by
    calc ⌊q⌋ ≤ ⌊(n : ℚ)⌋ := Int.floor_le_floor h
    _ = n := Int.floor_intCast n
  have hle : (⌊q⌋ : ℚ) ≤ q := Int.floor_le q
  simp only [pyRound, ratFloor_eq]
  split
  · exact hf
  · rename_i hr
    push_neg at hr
    have hlt : (⌊q⌋ : ℚ) < (n : ℚ) := by linarith
    have hlt' : ⌊q⌋ < n := by exact_mod_cast hlt
    split
    · omega
    · split <;> omega

theorem pyTrunc_of_nonneg {q : ℚ} (h : 0 ≤ q) : pyTrunc q = ⌊q⌋ := by
  simp only [pyTrunc, ratFloor_eq, if_pos h]

theorem pyTrunc_nonneg {q : ℚ} (h : 0 ≤ q) : 0 ≤ pyTrunc q := by
  rw [pyTrunc_of_nonneg h]
  exact Int.le_floor.mpr (by exact_mod_cast h)

theorem pyTrunc_le_int {q : ℚ} {n : ℤ} (h0 : 0 ≤ q) (h : q ≤ (n : ℚ)) :
    pyTrunc q ≤ n := by
  rw [pyTrunc_of_nonneg h0]
  calc ⌊q⌋ ≤ ⌊(n : ℚ)⌋ := Int.floor_le_floor h
  _ = n := Int.floor_intCast n

theorem count_replicate_append (c d : Char) (h : c ≠ d) (a b : ℕ) :
    (List.replicate a c ++ List.replicate b d).count c = a := by
  simp [List.count_append, List.count_replicate, h]
  exact fun hdc => absurd hdc.symm h

theorem count_replicate_append_right (c d : Char) (h : c ≠ d) (a b : ℕ) :
    (List.replicate a c ++ List.replicate b d).count d = b := by
  simp [List.count_append, List.count_replicate, h.symm]
  exact fun hcd => absurd hcd h

theorem length_replicate_append (c d : Char) (a b : ℕ) :
    (List.replicate a c ++ List.replicate b d).length = a + b := by
  simp

theorem countChar_mk (c : Char) (l : List Char) :
    countChar c (String.mk l) = l.count c := rfl

theorem length_mk (l : List Char) : (String.mk l).length = l.length := rfl

/-- Fill bound for the duim bar: `percent/100 * width` lies below `width`. -/
theorem duim_fill_le {p : ℚ} {w : ℤ} (h100 : p ≤ 100) (hw : 0 < w) :
    pyRound (p / 100 * (w : ℚ)) ≤ w := by
  have hw' : (0 : ℚ) ≤ (w : ℚ) := by exact_mod_cast le_of_lt hw
  have h1 : p / 100 ≤ 1 := (div_le_one (by norm_num : (0 : ℚ) < 100)).mpr h100
  have hq : p / 100 * (w : ℚ) ≤ (w : ℚ) := by
    calc p / 100 * (w : ℚ) ≤ 1 * (w : ℚ) := mul_le_mul_of_nonneg_right h1 hw'
    _ = (w : ℚ) := one_mul _
  exact pyRound_le_int hq

/-- Fill bound for the assignment2 bar when percent is a fraction of 1. -/
theorem asg2_fill_le {p : ℚ} {L : ℤ} (h0 : 0 ≤ p) (h1 : p ≤ 1) (hL : 0 < L) :
    pyTrunc (p * (L : ℚ)) ≤ L := by
  have hL' : (0 : ℚ) ≤ (L : ℚ) := by exact_mod_cast le_of_lt hL
  have hq0 : 0 ≤ p * (L : ℚ) := mul_nonneg h0 hL'
  have hq : p * (L : ℚ) ≤ (L : ℚ) := by
    calc p * (L : ℚ) ≤ 1 * (L : ℚ) := mul_le_mul_of_nonneg_right h1 hL'
    _ = (L : ℚ) := one_mul _
  exact pyTrunc_le_int hq0 hq

/-! ### Claim theorems -/

/-- Claim C1 counterexample.  At `percent = 12.5`, `width = 4` the value
`percent/100 * width = 0.5` rounds half up to 1, yet the duim bar has 0
filled characters (Python `round` rounds ties to even), and the
assignment2 bar has 50 filled characters (it truncates `percent * length`,
treating percent as a fraction of 1): the claimed fill count and the
claimed agreement between the two variants both fail. -/
theorem C1_counterexample :
    (duim.percent_to_graph (25 / 2) 4).map (countChar '=') = .ok 0 ∧
    roundHalfUp ((25 / 2 : ℚ) / 100 * 4) = 1 ∧
    countChar '#' (String.mk (assignment2.bar_region (25 / 2) 4)) = 50 :=
  ⟨by decide, by decide, by decide⟩

/-- Claim C1 (amended): for `percent ∈ [0,100]` and `width > 0` the duim
bar consists of `filled = round-half-even(percent/100 * width)` markers
followed by `width - filled` spaces, while the assignment2 bar, whose
percent argument is a fraction of 1, consists of
`filled = trunc(percent * length)` markers followed by `length - filled`
spaces; the two variants use different rounding rules and scales. -/
theorem C1_amended :
    (∀ (p : ℚ) (w : ℤ), 0 ≤ p → p ≤ 100 → 0 < w →
      (duim.percent_to_graph p w).map
          (fun s => ((countChar '=' s : ℤ), (countChar ' ' s : ℤ))) =
        .ok (pyRound (p / 100 * (w : ℚ)), w - pyRound (p / 100 * (w : ℚ)))) ∧
    (∀ (p : ℚ) (L : ℤ), 0 ≤ p → p ≤ 1 → 0 < L →
      ((countChar '#' (String.mk (assignment2.bar_region p L)) : ℤ),
        (countChar ' ' (String.mk (assignment2.bar_region p L)) : ℤ)) =
        (pyTrunc (p * (L : ℚ)), L - pyTrunc (p * (L : ℚ)))) := by
  constructor
  · intro p w h0 h100 hw
    have hw' : (0 : ℚ) ≤ (w : ℚ) := by exact_mod_cast le_of_lt hw
    have hq : 0 ≤ p / 100 * (w : ℚ) := mul_nonneg (by positivity) hw'
    have hf0 : 0 ≤ pyRound (p / 100 * (w : ℚ)) := pyRound_nonneg hq
    have hfw : pyRound (p / 100 * (w : ℚ)) ≤ w := duim_fill_le h100 hw
    have hcond : ¬¬(0 ≤ p ∧ p ≤ 100) := not_not_intro ⟨h0, h100⟩
    unfold duim.percent_to_graph duim.graph_chars
    rw [if_neg hcond]
    simp only [Except.map, Except.ok.injEq, Prod.mk.injEq]
    constructor
    · rw [countChar_mk, count_replicate_append '=' ' ' (by decide)]
      exact Int.toNat_of_nonneg hf0
    · rw [countChar_mk, count_replicate_append_right '=' ' ' (by decide)]
      exact Int.toNat_of_nonneg (by omega)
  · intro p L h0 h1 hL
    have hL' : (0 : ℚ) ≤ (L : ℚ) := by exact_mod_cast le_of_lt hL
    have hq : 0 ≤ p * (L : ℚ) := mul_nonneg h0 hL'
    have hf0 : 0 ≤ pyTrunc (p * (L : ℚ)) := pyTrunc_nonneg hq
    have hfL : pyTrunc (p * (L : ℚ)) ≤ L := asg2_fill_le h0 h1 hL
    unfold assignment2.bar_region
    simp only [Prod.mk.injEq]
    constructor
    · rw [countChar_mk, count_replicate_append '#' ' ' (by decide)]
      exact Int.toNat_of_nonneg hf0
    · rw [countChar_mk, count_replicate_append_right '#' ' ' (by decide)]
      exact Int.toNat_of_nonneg (by omega)

/-- Claim C1 amended witness: `percent = 62.5`, `width = 8` fills 5
markers and 3 spaces in duim; `percent = 0.5`, `length = 20` fills 10
markers and 10 spaces in assignment2. -/
theorem C1_witness :
    (duim.percent_to_graph (125 / 2) 8).map
        (fun s => ((countChar '=' s : ℤ), (countChar ' ' s : ℤ))) =
      .ok (5, 3) ∧
    ((countChar '#' (String.mk (assignment2.bar_region (1 / 2) 20)) : ℤ),
      (countChar ' ' (String.mk (assignment2.bar_region (1 / 2) 20)) : ℤ)) =
      (10, 10) := by
  constructor
  · exact (C1_amended.1 (125 / 2) 8 (by decide) (by decide) (by decide)).trans
      (by decide)
  · exact (C1_amended.2 (1 / 2) 20 (by decide) (by decide) (by decide)).trans
      (by decide)

/-- Claim C2 counterexample.  The claim quantifies over `percent ∈ [0,100]`
for both pipelines, but the assignment2 bar region at `percent = 50`,
`width = 20` has length `int(50 * 20) = 1000`, not 20 (that variant reads
its percent argument as a fraction of 1). -/
theorem C2_counterexample :
    (String.mk (assignment2.bar_region 50 20)).length = 1000 ∧
    (1000 : ℕ) ≠ 20 := by
  constructor
  · unfold assignment2.bar_region
    rw [length_mk, length_replicate_append]
    have h : pyTrunc ((50 : ℚ) * ((20 : ℤ) : ℚ)) = 1000 := by decide
    rw [h]
    decide
  · decide

/-- Claim C2 (amended): the duim bar has length exactly `width` for every
`percent ∈ [0,100]` and `width > 0`; the assignment2 bar region has length
exactly `length` on the domain of that variant, `percent ∈ [0,1]`. -/
theorem C2_amended :
    (∀ (p : ℚ) (w : ℤ), 0 ≤ p → p ≤ 100 → 0 < w →
      (duim.percent_to_graph p w).map String.length = .ok w.toNat) ∧
    (∀ (p : ℚ) (L : ℤ), 0 ≤ p → p ≤ 1 → 0 < L →
      (String.mk (assignment2.bar_region p L)).length = L.toNat) := by
  constructor
  · intro p w h0 h100 hw
    have hw' : (0 : ℚ) ≤ (w : ℚ) := by exact_mod_cast le_of_lt hw
    have hq : 0 ≤ p / 100 * (w : ℚ) := mul_nonneg (by positivity) hw'
    have hf0 : 0 ≤ pyRound (p / 100 * (w : ℚ)) := pyRound_nonneg hq
    have hfw : pyRound (p / 100 * (w : ℚ)) ≤ w := duim_fill_le h100 hw
    have hcond : ¬¬(0 ≤ p ∧ p ≤ 100) := not_not_intro ⟨h0, h100⟩
    unfold duim.percent_to_graph duim.graph_chars
    rw [if_neg hcond]
    simp only [Except.map, Except.ok.injEq]
    rw [length_mk, length_replicate_append]
    omega
  · intro p L h0 h1 hL
    have hL' : (0 : ℚ) ≤ (L : ℚ) := by exact_mod_cast le_of_lt hL
    have hq : 0 ≤ p * (L : ℚ) := mul_nonneg h0 hL'
    have hf0 : 0 ≤ pyTrunc (p * (L : ℚ)) := pyTrunc_nonneg hq
    have hfL : pyTrunc (p * (L : ℚ)) ≤ L := asg2_fill_le h0 h1 hL
    unfold assignment2.bar_region
    rw [length_mk, length_replicate_append]
    omega

/-- Claim C2 amended witness: width 8 bars have length 8 in both
variants. -/
theorem C2_witness :
    (duim.percent_to_graph 25 8).map String.length = .ok 8 ∧
    (String.mk (assignment2.bar_region (1 / 4) 8)).length = 8 := by
  constructor
  · exact (C2_amended.1 25 8 (by decide) (by decide) (by decide)).trans
      (by decide)
  · exact (C2_amended.2 (1 / 4) 8 (by decide) (by decide) (by decide)).trans
      (by decide)

/-- Claim C3 counterexample.  `percent_to_graph` in `duim.py` does not
validate the width: at `percent = 50`, `width = -5 ≤ 0` it returns the
empty bar normally instead of failing. -/
theorem C3_counterexample :
    duim.percent_to_graph 50 (-5) = .ok "" ∧ (-5 : ℤ) ≤ 0 :=
  ⟨by decide, by decide⟩

/-- Claim C3 (amended): `percent_to_graph` in `duim.py` raises `ValueError`
exactly when `percent` is outside `[0,100]`; the width is never validated,
so `width ≤ 0` returns normally (and the assignment2 variant performs no
validation at all). -/
theorem C3_amended (percent : ℚ) (total_chars : ℤ) :
    (∃ s, duim.percent_to_graph percent total_chars = .ok s) ↔
      (0 ≤ percent ∧ percent ≤ 100) := by
  by_cases h : 0 ≤ percent ∧ percent ≤ 100
  · simp only [duim.percent_to_graph, if_neg (not_not_intro h)]
    exact ⟨fun _ => h, fun _ => ⟨_, rfl⟩⟩
  · simp only [duim.percent_to_graph, if_pos h]
    exact ⟨fun ⟨s, hs⟩ => absurd hs (by simp), fun hc => absurd hc h⟩

/-- Claim C3 amended witness: an in-range percent renders successfully. -/
theorem C3_witness : ∃ s, duim.percent_to_graph 50 7 = .ok s :=
  (C3_amended 50 7).mpr (by decide)

/-- Claim C4: for every directory-to-size mapping, the percentage `main`
of `duim.py` computes is 0 for every entry when the total is 0 (the
guarded branch, no division), and `100 * size / total` when the total is
positive. -/
theorem C4_zero_total_guard (d : List (String × ℤ)) :
    (duim.valuesSum d = 0 →
      ∀ e ∈ d, duim.entry_percent e.2 (duim.valuesSum d) = 0) ∧
    (0 < duim.valuesSum d →
      ∀ e ∈ d, duim.entry_percent e.2 (duim.valuesSum d) =
        100 * (e.2 : ℚ) / ((duim.valuesSum d : ℤ) : ℚ)) := by
  constructor
  · intro h0 e _
    rw [h0]
    simp [duim.entry_percent]
  · intro hpos e _
    unfold duim.entry_percent
    rw [if_pos hpos]
    ring

/-- Claim C4 witness: a zero-size singleton yields percent 0, a positive
singleton yields `100 * size / total`. -/
theorem C4_witness :
    duim.entry_percent ("/a", (0 : ℤ)).2 (duim.valuesSum [("/a", (0 : ℤ))]) = 0 ∧
    duim.entry_percent ("/b", (3 : ℤ)).2 (duim.valuesSum [("/b", (3 : ℤ))]) =
      100 * (((3 : ℤ)) : ℚ) / ((duim.valuesSum [("/b", (3 : ℤ))] : ℤ) : ℚ) :=
  ⟨(C4_zero_total_guard [("/a", 0)]).1 (by decide) ("/a", 0) (by decide),
   (C4_zero_total_guard [("/b", 3)]).2 (by decide) ("/b", 3) (by decide)⟩

/-- Claim C5 counterexample.  `du -d 1` output carries a final line for
the target directory itself; `create_dir_dict` parses it like any other
line, so on `["100\t./a", "200\t./b", "300\t."]` the displayed total is
600, not the children-only sum 300 the claim requires. -/
theorem C5_counterexample :
    duim.total_size ["100\t./a", "200\t./b", "300\t."] = 600 ∧
    duim.valuesSum
      ((duim.create_dir_dict ["100\t./a", "200\t./b", "300\t."]).filter
        (fun e => e.1 != ".")) = 300 ∧
    (600 : ℤ) ≠ 300 :=
  ⟨by decide, by decide, by decide⟩

/-- Claim C5 (amended): the displayed grand total is the sum of the values
of all parsed entries — including the entry from the du total line for the
target directory, which is not excluded — and this same sum is the
denominator of every per-directory percentage. -/
theorem C5_amended :
    duim.total_size ["100\t./a", "200\t./b", "300\t."] = (100 + 200) + 300 ∧
    (∀ (lines : List String) (size : ℤ), 0 < duim.total_size lines →
      duim.report_percent lines size * ((duim.total_size lines : ℤ) : ℚ) =
        (size : ℚ) * 100) := by
  constructor
  · decide
  · intro lines size hpos
    have hne : ((duim.total_size lines : ℤ) : ℚ) ≠ 0 := by
      exact_mod_cast ne_of_gt hpos
    unfold duim.report_percent duim.entry_percent
    rw [if_pos hpos]
    field_simp

/-- Claim C5 amended witness: with a single 100-valued entry the computed
percentage times the displayed total recovers `size * 100`. -/
theorem C5_witness :
    duim.report_percent ["100\t./a"] 50 *
        ((duim.total_size ["100\t./a"] : ℤ) : ℚ) = ((50 : ℤ) : ℚ) * 100 :=
  C5_amended.2 ["100\t./a"] 50 (by decide)

/-- Claim C6: `create_dir_dict` maps each line of the shape
`<integer><whitespace><path>` to its size, skips every other line without
aborting, and on the four-line example produces exactly the three-entry
dict. -/
theorem C6_create_dir_dict :
    duim.create_dir_dict ["100\t/a", "200 /b", "garbage-line", "50\t/c"] =
      [("/a", 100), ("/b", 200), ("/c", 50)] ∧
    (∀ (pre : List String) (line : String) (post : List String),
      duim.parseLine line = none →
      duim.create_dir_dict (pre ++ line :: post) =
        duim.create_dir_dict (pre ++ post)) ∧
    (∀ (lines : List String) (line directory : String) (size : ℤ),
      duim.parseLine line = some (directory, size) →
      duim.create_dir_dict (lines ++ [line]) =
        duim.dictInsert (duim.create_dir_dict lines) directory size) := by
  refine ⟨by decide, ?_, ?_⟩
  · intro pre line post h
    simp [duim.create_dir_dict, List.foldl_append, duim.dirStep, h]
  · intro lines line directory size h
    simp [duim.create_dir_dict, List.foldl_append, duim.dirStep, h]

/-- Claim C6 witness: a malformed line between data lines is dropped, and
a well-formed line appended at the end inserts its entry. -/
theorem C6_witness :
    duim.create_dir_dict ["junk here", "10 /x"] =
      duim.create_dir_dict ["10 /x"] ∧
    duim.create_dir_dict ["10 /x", "20\t/y"] =
      duim.dictInsert (duim.create_dir_dict ["10 /x"]) "/y" 20 :=
  ⟨C6_create_dir_dict.2.1 [] "junk here" ["10 /x"] (by decide),
   C6_create_dir_dict.2.2 ["10 /x"] "20\t/y" "/y" 20 (by decide)⟩

/-- Claim C7 counterexample.  The human-readable formatter of `duim.py`
has no byte-scale branch: 999 falls through to the `K` branch and formats
as `"1.0 K"`, not as a byte-scale string; `"999 B"` is produced only by
the non-human-readable formatter. -/
theorem C7_counterexample :
    duim.human_readable_on 999 = "1.0 K" ∧
    duim.human_readable_on 999 ≠ "999 B" :=
  ⟨by decide, by decide⟩

/-- Claim C7 (amended): the human-readable formatter picks `G` for values
`≥ 10^9` and `M` for values in `[10^6, 10^9)`, but every value below
`10^6` — including every value below `10^3` — takes the `K` branch; the
raw byte string `"<x> B"` is produced only when the human-readable flag is
off.  Boundary values: 1000 → `"1.0 K"`, 10^6 → `"1.0 M"`,
10^9 → `"1.0 G"`, while 999 → `"1.0 K"` (no byte-scale branch). -/
theorem C7_amended :
    (∀ x : ℤ, (1000000000 : ℚ) ≤ (x : ℚ) →
      duim.human_readable_on x = duim.format1f ((x : ℚ) / 1000000000) ++ " G") ∧
    (∀ x : ℤ, (x : ℚ) < 1000000000 → (1000000 : ℚ) ≤ (x : ℚ) →
      duim.human_readable_on x = duim.format1f ((x : ℚ) / 1000000) ++ " M") ∧
    (∀ x : ℤ, (x : ℚ) < 1000000 →
      duim.human_readable_on x = duim.format1f ((x : ℚ) / 1000) ++ " K") ∧
    duim.human_readable_on 1000 = "1.0 K" ∧
    duim.human_readable_on 1000000 = "1.0 M" ∧
    duim.human_readable_on 1000000000 = "1.0 G" ∧
    duim.human_readable_on 999 = "1.0 K" ∧
    duim.human_readable_off 999 = "999 B" := by
  refine ⟨?_, ?_, ?_, by decide, by decide, by decide, by decide, by decide⟩
  · intro x h
    unfold duim.human_readable_on
    rw [if_pos h]
  · intro x hlt hge
    unfold duim.human_readable_on
    rw [if_neg (not_le.mpr hlt), if_pos hge]
  · intro x hlt
    have hlt9 : (x : ℚ) < 1000000000 := lt_trans hlt (by norm_num)
    unfold duim.human_readable_on
    rw [if_neg (not_le.mpr hlt9), if_neg (not_le.mpr hlt)]

/-- Claim C7 amended witness: 2×10^9 takes the G branch and formats as
`"2.0 G"`. -/
theorem C7_witness : duim.human_readable_on 2000000000 = "2.0 G" :=
  (C7_amended.1 2000000000 (by decide)).trans (by decide)

/-- If no line starts with `MemAvailable`, the loop of `get_avail_mem`
never overwrites the available register. -/
theorem availFreeGo_const_avail :
    ∀ (lines : List String) (a f a' f' : ℤ),
    (∀ l ∈ lines, startswith l "MemAvailable" = false) →
    assignment2.availFreeGo a f lines = .ok (a', f') → a' = a := by
  intro lines
  induction lines with
  | nil =>
    intro a f a' f' _ hok
    simp [assignment2.availFreeGo] at hok
    exact hok.1.symm
  | cons l ls ih =>
    intro a f a' f' hno hok
    have hl : startswith l "MemAvailable" = false := hno l (List.mem_cons_self l ls)
    have hls : ∀ m ∈ ls, startswith m "MemAvailable" = false :=
      fun m hm => hno m (List.mem_cons_of_mem l hm)
    simp only [assignment2.availFreeGo, hl, Bool.false_eq_true, if_false] at hok
    split at hok
    · split at hok
      · exact ih a _ a' f' hls hok
      · exact absurd hok (by simp)
    · exact ih a f a' f' hls hok

/-- The loop of `rss_mem_of_pid` adds the sum of the parseable `Rss:`
values to its accumulator. -/
theorem rssGo_sum :
    ∀ (lines : List String) (acc : ℤ),
    (∀ l ∈ lines, startswith l "Rss:" = true → (secondTokenInt l).isSome) →
    assignment2.rssGo acc lines = .ok (acc + (rssValues lines).sum) := by
  intro lines
  induction lines with
  | nil =>
    intro acc _
    simp [assignment2.rssGo, rssValues]
  | cons l ls ih =>
    intro acc h
    have hls : ∀ m ∈ ls, startswith m "Rss:" = true → (secondTokenInt m).isSome :=
      fun m hm => h m (List.mem_cons_of_mem l hm)
    by_cases hl : startswith l "Rss:" = true
    · obtain ⟨v, hv⟩ := Option.isSome_iff_exists.mp (h l (List.mem_cons_self l ls) hl)
      simp only [assignment2.rssGo, hl, if_true, hv]
      rw [ih (acc + v) hls]
      have hvals : rssValues (l :: ls) = v :: rssValues ls := by
        simp [rssValues, List.filterMap_cons, hl, hv]
      rw [hvals, List.sum_cons, add_assoc]
    · simp only [Bool.not_eq_true] at hl
      simp only [assignment2.rssGo, hl, Bool.false_eq_true, if_false]
      rw [ih acc hls]
      have hvals : rssValues (l :: ls) = rssValues ls := by
        simp [rssValues, List.filterMap_cons, hl]
      rw [hvals]

/-- The loop of `get_rss_total` in `duim.py` adds the sum of the parseable
`Rss:` values to its accumulator (same argument as `rssGo_sum`). -/
theorem rssTotalGo_sum :
    ∀ (lines : List String) (acc : ℤ),
    (∀ l ∈ lines, startswith l "Rss:" = true → (secondTokenInt l).isSome) →
    duim.rssTotalGo acc lines = .ok (acc + (rssValues lines).sum) := by
  intro lines
  induction lines with
  | nil =>
    intro acc _
    simp [duim.rssTotalGo, rssValues]
  | cons l ls ih =>
    intro acc h
    have hls : ∀ m ∈ ls, startswith m "Rss:" = true → (secondTokenInt m).isSome :=
      fun m hm => h m (List.mem_cons_of_mem l hm)
    by_cases hl : startswith l "Rss:" = true
    · obtain ⟨v, hv⟩ := Option.isSome_iff_exists.mp (h l (List.mem_cons_self l ls) hl)
      simp only [duim.rssTotalGo, hl, if_true, hv]
      rw [ih (acc + v) hls]
      have hvals : rssValues (l :: ls) = v :: rssValues ls := by
        simp [rssValues, List.filterMap_cons, hl, hv]
      rw [hvals, List.sum_cons, add_assoc]
    · simp only [Bool.not_eq_true] at hl
      simp only [duim.rssTotalGo, hl, Bool.false_eq_true, if_false]
      rw [ih acc hls]
      have hvals : rssValues (l :: ls) = rssValues ls := by
        simp [rssValues, List.filterMap_cons, hl]
      rw [hvals]

/-- Claim C8: when no line of the memory-info source starts with
`MemAvailable`, the available register stays 0, Python `or` falls through,
and `get_avail_mem` returns `2 * mem_free` for the folded `MemFree`
value. -/
theorem C8_memavailable_fallback (lines : List String) (a f : ℤ)
    (hno : ∀ l ∈ lines, startswith l "MemAvailable" = false)
    (hok : assignment2.availFreeGo 0 0 lines = .ok (a, f)) :
    assignment2.get_avail_mem lines = .ok (2 * f) := by
  have ha : a = 0 := availFreeGo_const_avail lines 0 0 a f hno hok
  rw [ha] at hok
  unfold assignment2.get_avail_mem
  rw [hok]
  simp [Except.map, mul_comm]

/-- Claim C8 witness: the spec example — `MemTotal: 1000 kB` and
`MemFree: 100 kB` with no `MemAvailable` line — yields 200. -/
theorem C8_witness :
    assignment2.get_avail_mem ["MemTotal: 1000 kB", "MemFree: 100 kB"] =
      .ok 200 :=
  C8_memavailable_fallback _ 0 100 (by decide) (by decide)

/-- Claim C9: the RSS readers of both scripts return the sum of all
`Rss:` line values of the smaps source, and return 0 (not an error) when
the source is missing. -/
theorem C9_rss_sum (smapsLines : List String)
    (h : ∀ l ∈ smapsLines, startswith l "Rss:" = true →
      (secondTokenInt l).isSome) :
    assignment2.rss_mem_of_pid none = .ok 0 ∧
    duim.get_rss_total none = .ok 0 ∧
    assignment2.rss_mem_of_pid (some smapsLines) =
      .ok (rssValues smapsLines).sum ∧
    duim.get_rss_total (some smapsLines) = .ok (rssValues smapsLines).sum := by
  refine ⟨rfl, rfl, ?_, ?_⟩
  · show assignment2.rssGo 0 smapsLines = _
    rw [rssGo_sum smapsLines 0 h, zero_add]
  · show duim.rssTotalGo 0 smapsLines = _
    rw [rssTotalGo_sum smapsLines 0 h, zero_add]

/-- Claim C9 witness: three `Rss:` lines of 100, 200, 50 sum to 350 — the
sum, not the maximum (200) or the last value (50). -/
theorem C9_witness :
    assignment2.rss_mem_of_pid
        (some ["Rss: 100 kB", "Rss: 200 kB", "Rss: 50 kB"]) = .ok 350 ∧
    duim.get_rss_total
        (some ["Rss: 100 kB", "Rss: 200 kB", "Rss: 50 kB"]) = .ok 350 := by
  have h := C9_rss_sum ["Rss: 100 kB", "Rss: 200 kB", "Rss: 50 kB"] (by decide)
  exact ⟨h.2.2.1.trans (by decide), h.2.2.2.trans (by decide)⟩

/-- Claim C10: a `MemAvailable` line whose parsed value is 0 leaves the
available register at 0 — exactly as if the line were absent — so
`mem_available or (mem_free * 2)` still takes the fallback and
`get_avail_mem` returns `2 * mem_free`, not 0. -/
theorem C10_zero_memavailable (lines : List String) (f : ℤ)
    (_hpresent : ∃ l ∈ lines, startswith l "MemAvailable" = true)
    (hok : assignment2.availFreeGo 0 0 lines = .ok (0, f)) :
    assignment2.get_avail_mem lines = .ok (2 * f) := by
  unfold assignment2.get_avail_mem
  rw [hok]
  simp [Except.map, mul_comm]

/-- Claim C10 witness: `MemAvailable: 0 kB` present with
`MemFree: 100 kB` yields 200, not 0. -/
theorem C10_witness :
    assignment2.get_avail_mem
        ["MemTotal: 1000 kB", "MemAvailable: 0 kB", "MemFree: 100 kB"] =
      .ok 200 :=
  C10_zero_memavailable _ 100 (by decide) (by decide)
